/-
  Verification of the bitrate-suggestion core of the Video-Checker repository
  (src/bitrate_logic.py) against its natural-language specification.

  Modelling conventions (shallow embedding):
  * Python integers are ℤ, Python strings are String.
  * The configuration that `load_video_config` reads from the environment is
    modelled as an explicit `Profile` value passed to each function; the
    environment's defaults are the literal `load_video_config` value below.
  * Python float arithmetic in the scaling engine (quotients, `**`, products)
    is modelled by exact real arithmetic with `Real.rpow`, i.e. by the
    mathematical formula the code transcribes; decimal literals denote the
    decimals they are written as.  The one place where binary64 rounding is
    observable in an integer output of the program is `int(target_bitrate *
    1.15)` in `calculate_encoding_parameters` (the literal 1.15 is not a
    binary64 value), so that multiplication is modelled bit-exactly by `fl64`,
    round-to-nearest-even binary64 rounding (exponent range unbounded: all
    quantities here are far from overflow/underflow).
  * Fallible code returns `Except String`: `calculate_suggested_video_bitrate`
    raises ZeroDivisionError when a denominator is zero (in particular when the
    reference encoder efficiency is 0) and TypeError at `int(...)` when a
    negative base with a non-integral exponent produced a complex value; the
    guards below reproduce the order in which CPython would raise.
  * `int(x)` on a float is truncation toward zero: `pyTrunc` / `pyTruncQ`.
-/
import Mathlib

namespace VideoChecker

/-- The configuration tuple returned by `load_video_config` in
src/bitrate_logic.py: scaling percentages (floats), reference geometry and
bitrate (ints), and the reference encoder name. -/
structure Profile where
  pixel_scaling : ℚ
  framerate_scaling : ℚ
  reference_width : ℤ
  reference_height : ℤ
  reference_framerate : ℤ
  reference_bitrate : ℤ
  reference_encoder : String
  deriving Repr, DecidableEq

/-- `load_video_config` with no `.env` file present: the hard-coded defaults
`PIXEL_SCALING=90.0, FRAMERATE_SCALING=75.0, REFERENCE_WIDTH=1920,
REFERENCE_HEIGHT=1080, REFERENCE_FRAMERATE=24, REFERENCE_BITRATE=6000000,
REFERENCE_ENCODER='AVC'`. -/
def load_video_config : Profile :=
  { pixel_scaling := 90
    framerate_scaling := 75
    reference_width := 1920
    reference_height := 1080
    reference_framerate := 24
    reference_bitrate := 6000000
    reference_encoder := "AVC" }

/-- The spec's Reference Profile invariant (spec section 3): all reference
numbers strictly positive. -/
def Profile.Valid (p : Profile) : Prop :=
  0 < p.reference_width ∧ 0 < p.reference_height ∧
    0 < p.reference_framerate ∧ 0 < p.reference_bitrate

instance (p : Profile) : Decidable p.Valid := by
  unfold Profile.Valid; infer_instance

/-- Python's `str.lower()` restricted to its ASCII action (the only part that
can affect membership in the all-ASCII codec table: the sole non-ASCII
character Python lowercases into ASCII is KELVIN SIGN → 'k', and no table key
contains 'k'). -/
def py_lower (s : String) : String :=
  String.mk (s.data.map Char.toLower)

/-- The `ENCODER_MAP` dict literal of `obtain_encoder_efficiency`, in source
order.  Values are the decimal literals of the source. -/
def ENCODER_MAP : List (String × ℚ) :=
  [("prores", 3), ("dnxhd", 3), ("dnxhr", 3),
   ("mpeg-1", 2), ("mpeg-2", 18/10), ("vc-1", 15/10), ("wmv", 16/10),
   ("realvideo", 2),
   ("mpeg-4 visual", 13/10), ("iso/asp", 13/10), ("xvid", 13/10),
   ("divx", 13/10), ("dx50", 13/10), ("mp4v", 13/10),
   ("avc", 1), ("h.264", 1), ("iso/avc", 1),
   ("hevc", 3/4), ("h.265", 3/4), ("iso/hevc", 3/4),
   ("vp8", 12/10), ("vp9", 7/10),
   ("av1", 6/10)]

/-- `obtain_encoder_efficiency`: `ENCODER_MAP.get(encoder.lower(), 0)`. -/
def obtain_encoder_efficiency (encoder : String) : ℚ :=
  match ENCODER_MAP.lookup (py_lower encoder) with
  | some v => v
  | none => 0

/-- Truncation toward zero on ℚ, Python's `int(float)`. -/
def pyTruncQ (q : ℚ) : ℤ :=
  if q < 0 then ⌈q⌉ else ⌊q⌋

/-- Truncation toward zero on ℝ, Python's `int(float)`. -/
noncomputable def pyTrunc (x : ℝ) : ℤ :=
  if x < 0 then ⌈x⌉ else ⌊x⌋

/-- Round-to-nearest, ties-to-even binary64 rounding of an exact rational,
with unbounded exponent range (no overflow, no subnormals: every quantity this
development applies it to lies well inside the normal range).  `m0` is the
exact significand scaled to `[2^52, 2^53)`. -/
def fl64 (q : ℚ) : ℚ :=
  if q = 0 then 0
  else
    let s : ℚ := if q < 0 then -1 else 1
    let a : ℚ := |q|
    let e : ℤ := Int.log 2 a
    let m0 : ℚ := a * 2 ^ (52 - e)
    let n : ℤ := ⌊m0⌋
    let frac : ℚ := m0 - n
    let m : ℤ :=
      if 1/2 < frac then n + 1
      else if frac < 1/2 then n
      else if n % 2 = 0 then n else n + 1
    s * (m : ℚ) * 2 ^ (e - 52)

/-- The exact raw (pre-quantization) bitrate of the Bitrate Scaling Engine:
`reference_bitrate * pixel_multiplier * framerate_multiplier *
encoder_multiplier` (src/bitrate_logic.py lines 93-111), with `**` read as the
real power function. -/
noncomputable def raw_bitrate (p : Profile) (width height : ℤ) (framerate : ℚ)
    (encoder : String) : ℝ :=
  let pixel_count : ℤ := width * height
  let reference_pixel_count : ℤ := p.reference_width * p.reference_height
  let pixel_multiplier : ℝ :=
    ((pixel_count : ℝ) / (reference_pixel_count : ℝ)) ^
      ((p.pixel_scaling / 100 : ℚ) : ℝ)
  let framerate_multiplier : ℝ :=
    ((framerate : ℝ) / (p.reference_framerate : ℝ)) ^
      ((p.framerate_scaling / 100 : ℚ) : ℝ)
  let encoder_multiplier : ℝ :=
    ((obtain_encoder_efficiency encoder : ℚ) : ℝ) /
      ((obtain_encoder_efficiency p.reference_encoder : ℚ) : ℝ)
  (p.reference_bitrate : ℝ) * pixel_multiplier * framerate_multiplier *
    encoder_multiplier

/-- `calculate_suggested_video_bitrate(width, height, framerate, encoder)`.
The guards reproduce, in evaluation order, the exceptions CPython raises on
the way to `int(suggested_bitrate / 100000) * 100000`:
1. `pixel_count / reference_pixel_count` with a zero denominator;
2. `0.0 ** y` with `y < 0` in the pixel multiplier;
3. `framerate / reference_framerate` with a zero denominator;
4. `0.0 ** y` with `y < 0` in the framerate multiplier;
5. `encoder_efficiency / reference_encoder_efficiency` with denominator 0
   (the unknown-reference-encoder case);
6. a negative base under a non-integral exponent yields a complex float, and
   `int()` of it raises TypeError (only detected at the final conversion,
   hence after all the divisions). -/
noncomputable def calculate_suggested_video_bitrate (p : Profile)
    (width height : ℤ) (framerate : ℚ) (encoder : String) :
    Except String ℤ :=
  let pixel_count : ℤ := width * height
  let reference_pixel_count : ℤ := p.reference_width * p.reference_height
  let pexp : ℚ := p.pixel_scaling / 100
  let fexp : ℚ := p.framerate_scaling / 100
  let reference_encoder_efficiency : ℚ :=
    obtain_encoder_efficiency p.reference_encoder
  if reference_pixel_count = 0 then
    Except.error "ZeroDivisionError: division by zero"
  else if pixel_count = 0 ∧ pexp < 0 then
    Except.error "ZeroDivisionError: 0.0 cannot be raised to a negative power"
  else if p.reference_framerate = 0 then
    Except.error "ZeroDivisionError: float division by zero"
  else if framerate = 0 ∧ fexp < 0 then
    Except.error "ZeroDivisionError: 0.0 cannot be raised to a negative power"
  else if reference_encoder_efficiency = 0 then
    Except.error "ZeroDivisionError: float division by zero"
  else if ((pixel_count : ℚ) / (reference_pixel_count : ℚ) < 0 ∧ pexp.den ≠ 1)
      ∨ (framerate / (p.reference_framerate : ℚ) < 0 ∧ fexp.den ≠ 1) then
    Except.error "TypeError: int() argument must not be complex"
  else
    Except.ok
      (pyTrunc (raw_bitrate p width height framerate encoder / 100000) *
        100000)

/-- The dict returned by `calculate_encoding_parameters`. -/
structure EncodingParameters where
  target_bitrate : ℤ
  maxrate : ℤ
  bufsize : ℤ
  encoder : String
  deriving Repr, DecidableEq

/-- `load_output_config` with no `.env` file present: `OUTPUT_ENCODER`
defaults to `'libx265'`. -/
def load_output_config : String := "libx265"

/-- The `encoder_map.get(output_encoder, 'HEVC')` step of
`calculate_encoding_parameters`: maps an ffmpeg encoder identifier to the
codec-family name used by the efficiency table, defaulting to HEVC. -/
def target_encoder_of (output_encoder : String) : String :=
  let encoder_map : List (String × String) :=
    [("libx264", "AVC"), ("libx265", "HEVC"),
     ("libaom-av1", "AV1"), ("libvpx-vp9", "VP9")]
  (encoder_map.lookup output_encoder).getD "HEVC"

/-- `calculate_encoding_parameters(source_width, source_height,
source_framerate)` with the output-encoder configuration passed explicitly.
`maxrate = int(target_bitrate * 1.15)` is evaluated in binary64: the int is
converted to a double, the literal 1.15 denotes the double nearest 23/20, the
product is rounded again, and `int` truncates. -/
noncomputable def calculate_encoding_parameters (p : Profile)
    (output_encoder : String) (source_width source_height : ℤ)
    (source_framerate : ℚ) : Except String EncodingParameters :=
  let target_encoder := target_encoder_of output_encoder
  match calculate_suggested_video_bitrate p source_width source_height
      source_framerate target_encoder with
  | Except.error e => Except.error e
  | Except.ok target_bitrate =>
      let maxrate : ℤ :=
        pyTruncQ (fl64 (fl64 (target_bitrate : ℚ) * fl64 (23/20)))
      let bufsize : ℤ := maxrate * 2
      Except.ok ⟨target_bitrate, maxrate, bufsize, output_encoder⟩

/-- Decimal rendering with exactly two decimals of `v` hundredths:
`toString (v/100) ++ "." ++` the two-digit residue. -/
def twoDecString (v : ℕ) : String :=
  toString (v / 100) ++ "." ++ (if v % 100 < 10 then "0" else "") ++
    toString (v % 100)

/-- `f"{x:.2f}"` for a nonnegative binary64 value given as the exact rational
it denotes.  CPython renders the exact value correctly rounded to two
decimals; a tie is impossible for a binary64 argument (it would need a
denominator divisible by 25), so nearest rounding can be written as a floor. -/
def pyFormat2f (q : ℚ) : String :=
  twoDecString (⌊q * 100 + 1/2⌋).toNat

/-- `format_bitrate` (src/bitrate_logic.py lines 189-196).  Python's `/` on
integers is correctly rounded binary64 true division, i.e. `fl64` of the
exact quotient. -/
def format_bitrate (bitrate : ℕ) : String :=
  if bitrate ≥ 1000000 then
    pyFormat2f (fl64 ((bitrate : ℚ) / 1000000)) ++ " Mbps"
  else if bitrate ≥ 1000 then
    pyFormat2f (fl64 ((bitrate : ℚ) / 1000)) ++ " Kbps"
  else
    toString bitrate ++ " bps"

/-! ### Helper lemmas about the binary64 rounding model -/

lemma int_log_eq {q : ℚ} {e : ℤ} (hq : 0 < q) (h1 : 2 ^ e ≤ q)
    (h2 : q < 2 ^ (e + 1)) : Int.log 2 q = e := by
  have hb : 1 < 2 := by norm_num
  have hle : e ≤ Int.log 2 q := by
    rw [← Int.zpow_le_iff_le_log hb hq]; exact_mod_cast h1
  have hlt : Int.log 2 q < e + 1 := by
    rw [← Int.lt_zpow_iff_log_lt hb hq]; exact_mod_cast h2
  omega

/-- Evaluation of `fl64` in the round-down case: if the scaled significand of
`q` sits less than half an ulp above the integer `n`, the rounding returns
`n` ulps. -/
lemma fl64_eq_down {q : ℚ} {e n : ℤ} (hq : 0 < q)
    (h1 : 2 ^ e ≤ q) (h2 : q < 2 ^ (e + 1))
    (hn1 : (n : ℚ) ≤ q * 2 ^ (52 - e)) (hn2 : q * 2 ^ (52 - e) - n < 1/2) :
    fl64 q = (n : ℚ) * 2 ^ (e - 52) := by
  have hne : q ≠ 0 := ne_of_gt hq
  have habs : |q| = q := abs_of_pos hq
  have hfloor : ⌊q * 2 ^ ((52 : ℤ) - e)⌋ = n :=
    Int.floor_eq_iff.2 ⟨hn1, by linarith⟩
  rw [fl64, if_neg hne]
  simp only [habs, int_log_eq hq h1 h2, hfloor]
  rw [if_neg (not_lt.2 hq.le), if_neg (not_lt.2 hn2.le), if_pos hn2]
  ring

/-- Evaluation of `fl64` in the round-up case: if the scaled significand of
`q` sits more than half an ulp above the integer `n` (and below `n + 1`), the
rounding returns `n + 1` ulps. -/
lemma fl64_eq_up {q : ℚ} {e n : ℤ} (hq : 0 < q)
    (h1 : 2 ^ e ≤ q) (h2 : q < 2 ^ (e + 1))
    (hn1 : q * 2 ^ (52 - e) < n + 1) (hn2 : 1/2 < q * 2 ^ (52 - e) - n) :
    fl64 q = ((n : ℚ) + 1) * 2 ^ (e - 52) := by
  have hne : q ≠ 0 := ne_of_gt hq
  have habs : |q| = q := abs_of_pos hq
  have hfloor : ⌊q * 2 ^ ((52 : ℤ) - e)⌋ = n :=
    Int.floor_eq_iff.2 ⟨by linarith, by exact_mod_cast hn1⟩
  rw [fl64, if_neg hne]
  simp only [habs, int_log_eq hq h1 h2, hfloor]
  rw [if_neg (not_lt.2 hq.le), if_pos hn2]
  push_cast
  ring

lemma fl64_zero : fl64 0 = 0 := by rw [fl64, if_pos rfl]

lemma int_log_bounds {q : ℚ} (hq : 0 < q) :
    2 ^ Int.log 2 q ≤ q ∧ q < 2 ^ (Int.log 2 q + 1) := by
  constructor
  · have := Int.zpow_log_le_self (b := 2) (r := q) (by norm_num) hq
    exact_mod_cast this
  · have := Int.lt_zpow_succ_log_self (b := 2) (by norm_num) q
    exact_mod_cast this

/-- `fl64` is exact on integers of magnitude below `2^53`. -/
lemma fl64_intCast {n : ℤ} (h0 : 0 < n) (h53 : n < 2 ^ 53) :
    fl64 (n : ℚ) = (n : ℚ) := by
  have hq : (0 : ℚ) < (n : ℚ) := by exact_mod_cast h0
  obtain ⟨h1, h2⟩ := int_log_bounds hq
  set e := Int.log 2 (n : ℚ) with he
  have he0 : 0 ≤ e := by
    by_contra hneg
    push_neg at hneg
    have : (2:ℚ) ^ (e + 1) ≤ 2 ^ (0:ℤ) :=
      zpow_le_zpow_right₀ (by norm_num) (by omega)
    have hn1 : (1:ℚ) ≤ (n:ℚ) := by exact_mod_cast h0
    simp only [zpow_zero] at this
    linarith
  have he52 : e ≤ 52 := by
    by_contra hgt
    push_neg at hgt
    have : (2:ℚ) ^ (53:ℤ) ≤ 2 ^ e := zpow_le_zpow_right₀ (by norm_num) (by omega)
    have hn53 : (n:ℚ) < 2 ^ (53:ℤ) := by
      rw [show (53:ℤ) = ((53:ℕ):ℤ) from rfl, zpow_natCast]
      exact_mod_cast h53
    linarith
  have h52e : ((52 - e).toNat : ℤ) = 52 - e := Int.toNat_of_nonneg (by omega)
  have hk : (2:ℚ) ^ (52 - e) = ((2 ^ (52 - e).toNat : ℤ) : ℚ) := by
    rw [← h52e, zpow_natCast]
    push_cast
    rfl
  have hmain := fl64_eq_down (q := (n:ℚ)) (e := e) (n := n * 2 ^ (52 - e).toNat)
    hq h1 h2
    (by rw [hk]; push_cast; exact le_of_eq (by ring))
    (by rw [hk]; push_cast; ring_nf; norm_num)
  rw [hmain]
  push_cast
  rw [← zpow_natCast (2:ℚ) (52 - e).toNat, h52e]
  rw [mul_assoc, ← zpow_add₀ (by norm_num : (2:ℚ) ≠ 0)]
  simp

/-- Relative error bound for `fl64`: rounding a positive value changes it by
at most half an ulp, which is at most `q / 2^53`. -/
lemma fl64_err {q : ℚ} (hq : 0 < q) : |fl64 q - q| ≤ q / 2 ^ 53 := by
  obtain ⟨h1, h2⟩ := int_log_bounds hq
  set e := Int.log 2 q with he
  set m0 : ℚ := q * 2 ^ (52 - e) with hm0
  have hqm0 : q = m0 * 2 ^ (e - 52) := by
    rw [hm0, mul_assoc, ← zpow_add₀ (by norm_num : (2:ℚ) ≠ 0)]
    simp
  have hfl : ((⌊m0⌋ : ℚ)) ≤ m0 := Int.floor_le _
  have hfu : m0 < ⌊m0⌋ + 1 := Int.lt_floor_add_one _
  have hpow : (0:ℚ) < 2 ^ (e - 52) := zpow_pos (by norm_num) _
  have hkey : ∀ m : ℤ, |(m : ℚ) - m0| ≤ 1/2 →
      |(m : ℚ) * 2 ^ (e - 52) - q| ≤ q / 2 ^ 53 := by
    intro m hm
    calc |(m : ℚ) * 2 ^ (e - 52) - q|
        = |(m : ℚ) - m0| * 2 ^ (e - 52) := by
          rw [hqm0, ← sub_mul, abs_mul, abs_of_pos hpow]
      _ ≤ 1/2 * 2 ^ (e - 52) := by
          exact mul_le_mul_of_nonneg_right hm hpow.le
      _ = 2 ^ (e - 53) := by
          rw [show e - 53 = -1 + (e - 52) by ring,
            zpow_add₀ (by norm_num : (2:ℚ) ≠ 0)]
          norm_num
      _ ≤ q / 2 ^ 53 := by
          rw [show e - 53 = e + -53 by ring,
            zpow_add₀ (by norm_num : (2:ℚ) ≠ 0)]
          rw [div_eq_mul_inv]
          have : (2:ℚ) ^ (-53 : ℤ) = ((2:ℚ) ^ (53:ℕ))⁻¹ := by
            rw [zpow_neg]
            norm_num
          rw [this]
          exact mul_le_mul_of_nonneg_right h1 (by positivity)
  rw [fl64, if_neg hq.ne']
  simp only [abs_of_pos hq, ← he, ← hm0]
  rw [if_neg (not_lt.2 hq.le)]
  split_ifs with hA hB hC
  · rw [one_mul]
    apply hkey
    rw [abs_le]
    constructor <;> push_cast <;> linarith
  · rw [one_mul]
    apply hkey
    rw [abs_le]
    constructor <;> push_cast <;> linarith
  · rw [one_mul]
    apply hkey
    rw [abs_le]
    constructor <;> push_cast <;> linarith
  · rw [one_mul]
    apply hkey
    rw [abs_le]
    constructor <;> push_cast <;> linarith

lemma pyTruncQ_of_nonneg {q : ℚ} (h : 0 ≤ q) : pyTruncQ q = ⌊q⌋ :=
  if_neg (not_lt.2 h)

lemma pyTrunc_of_nonneg {x : ℝ} (h : 0 ≤ x) : pyTrunc x = ⌊x⌋ :=
  if_neg (not_lt.2 h)

/-! ### Helper lemmas about the efficiency table -/

lemma lookup_mem_values {β : Type} {l : List (String × β)} {k : String} {v : β}
    (h : l.lookup k = some v) : v ∈ l.map Prod.snd := by
  induction l with
  | nil => simp [List.lookup] at h
  | cons hd tl ih =>
      rw [List.lookup] at h
      cases hbe : k == hd.1 with
      | false =>
          rw [hbe] at h
          have h2 : List.lookup k tl = some v := h
          simp only [List.map_cons, List.mem_cons]
          exact Or.inr (ih h2)
      | true =>
          rw [hbe] at h
          have h2 : some hd.2 = some v := h
          have h3 : hd.2 = v := by injection h2
          simp [List.map_cons, ← h3]

lemma lookup_eq_none_iff {β : Type} {l : List (String × β)} {k : String} :
    l.lookup k = none ↔ k ∉ l.map Prod.fst := by
  induction l with
  | nil => simp [List.lookup]
  | cons hd tl ih =>
      rw [List.lookup]
      cases hbe : k == hd.1 with
      | false =>
          have hk : k ≠ hd.1 := ne_of_beq_false hbe
          have hiff : List.lookup k tl = none ↔ k ∉ List.map Prod.fst tl := ih
          show List.lookup k tl = none ↔ k ∉ List.map Prod.fst (hd :: tl)
          rw [hiff]
          simp [hk]
      | true =>
          have hk : k = hd.1 := by simpa using hbe
          show some hd.2 = none ↔ k ∉ List.map Prod.fst (hd :: tl)
          simp [hk]

lemma encoder_map_values_bounds {v : ℚ} (h : v ∈ ENCODER_MAP.map Prod.snd) :
    3/5 ≤ v ∧ v ≤ 3 := by
  simp only [ENCODER_MAP, List.map] at h
  fin_cases h <;> norm_num

lemma obtain_encoder_efficiency_nonneg (s : String) :
    0 ≤ obtain_encoder_efficiency s := by
  rw [obtain_encoder_efficiency]
  cases h : ENCODER_MAP.lookup (py_lower s) with
  | none => norm_num
  | some v =>
      have := (encoder_map_values_bounds (lookup_mem_values h)).1
      linarith

lemma obtain_encoder_efficiency_pos {s : String}
    (h : obtain_encoder_efficiency s ≠ 0) : 0 < obtain_encoder_efficiency s :=
  lt_of_le_of_ne (obtain_encoder_efficiency_nonneg s) (Ne.symm h)

/-- The double literal `1.15` is `5179139571476070 / 2^52`, strictly below
`23/20`. -/
lemma fl64_of_23_20 : fl64 (23/20) = 5179139571476070 / 2 ^ 52 := by
  have h := fl64_eq_down (q := 23/20) (e := 0) (n := 5179139571476070)
    (by norm_num) (by norm_num) (by norm_num)
    (by push_cast; norm_num) (by push_cast; norm_num)
  rw [h]
  norm_num


/-! ### Evaluation lemmas for the scaling engine -/

/-- For strictly positive inputs under a valid profile with a known reference
encoder, no guard fires and the suggestion is the quantized raw bitrate. -/
lemma suggested_eq_of_pos {p : Profile} {w h : ℤ} {f : ℚ} (c : String)
    (hp : p.Valid) (hw : 0 < w) (hh : 0 < h) (hf : 0 < f)
    (hre : obtain_encoder_efficiency p.reference_encoder ≠ 0) :
    calculate_suggested_video_bitrate p w h f c =
      Except.ok (pyTrunc (raw_bitrate p w h f c / 100000) * 100000) := by
  obtain ⟨hrw, hrh, hrf, hrb⟩ := hp
  have g1 : ¬ (p.reference_width * p.reference_height = 0) :=
    mul_ne_zero hrw.ne' hrh.ne'
  have g2 : ¬ (w * h = 0 ∧ p.pixel_scaling / 100 < 0) := fun hc =>
    mul_ne_zero hw.ne' hh.ne' hc.1
  have g3 : ¬ (p.reference_framerate = 0) := hrf.ne'
  have g4 : ¬ (f = 0 ∧ p.framerate_scaling / 100 < 0) := fun hc => hf.ne' hc.1
  have g6 : ¬ ((((w * h : ℤ) : ℚ) / ((p.reference_width * p.reference_height : ℤ) : ℚ) < 0
        ∧ (p.pixel_scaling / 100).den ≠ 1)
      ∨ (f / ((p.reference_framerate : ℤ) : ℚ) < 0
        ∧ (p.framerate_scaling / 100).den ≠ 1)) := by
    rintro (⟨hlt, -⟩ | ⟨hlt, -⟩)
    · have hnum : (0:ℚ) < ((w * h : ℤ) : ℚ) := by
        have : (0:ℤ) < w * h := mul_pos hw hh
        exact_mod_cast this
      have hden : (0:ℚ) < ((p.reference_width * p.reference_height : ℤ) : ℚ) := by
        have : (0:ℤ) < p.reference_width * p.reference_height := mul_pos hrw hrh
        exact_mod_cast this
      exact absurd (div_pos hnum hden) (not_lt.2 hlt.le)
    · have hden : (0:ℚ) < ((p.reference_framerate : ℤ) : ℚ) := by exact_mod_cast hrf
      exact absurd (div_pos hf hden) (not_lt.2 hlt.le)
  simp only [calculate_suggested_video_bitrate]
  rw [if_neg g1, if_neg g2, if_neg g3, if_neg g4, if_neg hre, if_neg g6]

lemma raw_bitrate_nonneg {p : Profile} {w h : ℤ} {f : ℚ} (c : String)
    (hp : p.Valid) (hw : 0 < w) (hh : 0 < h) (hf : 0 < f) :
    0 ≤ raw_bitrate p w h f c := by
  obtain ⟨hrw, hrh, hrf, hrb⟩ := hp
  simp only [raw_bitrate]
  have hB : (0:ℝ) ≤ (p.reference_bitrate : ℝ) := by exact_mod_cast hrb.le
  have hb1 : (0:ℝ) ≤ ((w * h : ℤ) : ℝ) /
      ((p.reference_width * p.reference_height : ℤ) : ℝ) := by
    have h1 : (0:ℤ) ≤ w * h := (mul_pos hw hh).le
    have h2 : (0:ℤ) ≤ p.reference_width * p.reference_height :=
      (mul_pos hrw hrh).le
    have h1' : (0:ℝ) ≤ ((w * h : ℤ) : ℝ) := by exact_mod_cast h1
    have h2' : (0:ℝ) ≤ ((p.reference_width * p.reference_height : ℤ) : ℝ) := by
      exact_mod_cast h2
    exact div_nonneg h1' h2'
  have hb2 : (0:ℝ) ≤ ((f : ℝ)) / ((p.reference_framerate : ℤ) : ℝ) := by
    have h1' : (0:ℝ) ≤ (f : ℝ) := by exact_mod_cast hf.le
    have h2' : (0:ℝ) ≤ ((p.reference_framerate : ℤ) : ℝ) := by
      exact_mod_cast hrf.le
    exact div_nonneg h1' h2'
  refine mul_nonneg (mul_nonneg (mul_nonneg hB ?_) ?_) ?_
  · exact Real.rpow_nonneg hb1 _
  · exact Real.rpow_nonneg hb2 _
  · refine div_nonneg ?_ ?_
    · exact_mod_cast obtain_encoder_efficiency_nonneg c
    · exact_mod_cast obtain_encoder_efficiency_nonneg p.reference_encoder

/-- At the reference point every multiplier is 1, so the raw bitrate is the
reference bitrate. -/
lemma raw_bitrate_ref {p : Profile} (hp : p.Valid)
    (hre : obtain_encoder_efficiency p.reference_encoder ≠ 0) :
    raw_bitrate p p.reference_width p.reference_height
      (p.reference_framerate : ℚ) p.reference_encoder =
      (p.reference_bitrate : ℝ) := by
  obtain ⟨hrw, hrh, hrf, hrb⟩ := hp
  simp only [raw_bitrate]
  have hpc : ((p.reference_width * p.reference_height : ℤ) : ℝ) ≠ 0 := by
    have : (0:ℤ) < p.reference_width * p.reference_height := mul_pos hrw hrh
    exact_mod_cast this.ne'
  have hfr : ((p.reference_framerate : ℤ) : ℝ) ≠ 0 := by exact_mod_cast hrf.ne'
  have hee : ((obtain_encoder_efficiency p.reference_encoder : ℚ) : ℝ) ≠ 0 := by
    exact_mod_cast hre
  rw [div_self hpc]
  rw [show (((p.reference_framerate : ℚ) : ℝ)) = ((p.reference_framerate : ℤ) : ℝ) by push_cast; ring]
  rw [div_self hfr, div_self hee]
  rw [Real.one_rpow, Real.one_rpow]
  ring

lemma eff_avc_lower : obtain_encoder_efficiency "avc" = 1 := rfl
lemma eff_avc_upper : obtain_encoder_efficiency "AVC" = 1 := rfl
lemma eff_hevc : obtain_encoder_efficiency "hevc" = 3/4 := rfl
lemma eff_HEVC : obtain_encoder_efficiency "HEVC" = 3/4 := rfl
lemma eff_foobar : obtain_encoder_efficiency "foobar" = 0 := rfl

lemma default_valid : load_video_config.Valid := by
  refine ⟨?_, ?_, ?_, ?_⟩ <;> norm_num [load_video_config]

lemma eff_default_ref_ne_zero :
    obtain_encoder_efficiency load_video_config.reference_encoder ≠ 0 := by
  show obtain_encoder_efficiency "AVC" ≠ 0
  rw [eff_avc_upper]
  norm_num

lemma raw_default_avc :
    raw_bitrate load_video_config 1920 1080 24 "avc" = 6000000 := by
  simp only [raw_bitrate, load_video_config]
  rw [eff_avc_lower, eff_avc_upper]
  norm_num [Real.one_rpow]

/-! ### Claims -/

/-- C1: with the default Reference Profile,
`calculate_suggested_video_bitrate(1920, 1080, 24, "avc")` returns exactly
6,000,000; and for every valid Reference Profile whose reference encoder is a
known codec, calling the function at exactly the reference width, height,
framerate and reference encoder returns the reference bitrate rounded down to
the nearest 100,000. -/
theorem C1_reference_identity :
    calculate_suggested_video_bitrate load_video_config 1920 1080 24 "avc" =
      Except.ok 6000000 ∧
    ∀ p : Profile, p.Valid →
      obtain_encoder_efficiency p.reference_encoder ≠ 0 →
      calculate_suggested_video_bitrate p p.reference_width
          p.reference_height (p.reference_framerate : ℚ) p.reference_encoder =
        Except.ok (⌊(p.reference_bitrate : ℚ) / 100000⌋ * 100000) := by
  constructor
  · rw [suggested_eq_of_pos "avc" default_valid (by norm_num) (by norm_num)
      (by norm_num) eff_default_ref_ne_zero]
    rw [raw_default_avc, pyTrunc_of_nonneg (by norm_num)]
    norm_num
  · intro p hp hre
    have hfq : (0:ℚ) < (p.reference_framerate : ℚ) := by exact_mod_cast hp.2.2.1
    rw [suggested_eq_of_pos _ hp hp.1 hp.2.1 hfq hre]
    rw [raw_bitrate_ref hp hre]
    have hBnn : (0:ℝ) ≤ (p.reference_bitrate : ℝ) / 100000 := by
      have h0 : (0:ℤ) ≤ p.reference_bitrate := hp.2.2.2.le
      have h' : (0:ℝ) ≤ (p.reference_bitrate : ℝ) := by exact_mod_cast h0
      positivity
    rw [pyTrunc_of_nonneg hBnn]
    have hcast : (p.reference_bitrate : ℝ) / 100000 =
        (((p.reference_bitrate : ℚ) / 100000 : ℚ) : ℝ) := by push_cast; ring
    rw [hcast, Rat.floor_cast]

/-- Witness for C1: the general identity applied to the default profile and
its own reference encoder string "AVC". -/
theorem C1_reference_identity_witness :
    calculate_suggested_video_bitrate load_video_config 1920 1080 24 "AVC" =
      Except.ok 6000000 := by
  have h := C1_reference_identity.2 load_video_config default_valid
    eff_default_ref_ne_zero
  norm_num [load_video_config] at h
  exact h

/-- C2: for every positive width, height and framerate, and every valid
Reference Profile whose reference encoder is known (otherwise the call raises
and returns no integer), the returned integer is an exact multiple of 100,000
and equals `floor(raw_bitrate / 100000) * 100000`. -/
theorem C2_quantization (p : Profile) (w h : ℤ) (f : ℚ) (c : String)
    (hp : p.Valid) (hw : 0 < w) (hh : 0 < h) (hf : 0 < f)
    (hre : obtain_encoder_efficiency p.reference_encoder ≠ 0) :
    ∃ b : ℤ, calculate_suggested_video_bitrate p w h f c = Except.ok b ∧
      (100000 : ℤ) ∣ b ∧
      b = ⌊raw_bitrate p w h f c / 100000⌋ * 100000 := by
  refine ⟨_, suggested_eq_of_pos c hp hw hh hf hre, dvd_mul_left 100000 _, ?_⟩
  rw [pyTrunc_of_nonneg
    (div_nonneg (raw_bitrate_nonneg c hp hw hh hf) (by norm_num))]

/-- Witness for C2 at the default profile and the reference input. -/
theorem C2_quantization_witness :
    ∃ b : ℤ, calculate_suggested_video_bitrate load_video_config
        1920 1080 24 "avc" = Except.ok b ∧
      (100000 : ℤ) ∣ b ∧
      b = ⌊raw_bitrate load_video_config 1920 1080 24 "avc" / 100000⌋ *
        100000 :=
  C2_quantization load_video_config 1920 1080 24 "avc" default_valid
    (by norm_num) (by norm_num) (by norm_num) eff_default_ref_ne_zero

lemma raw_bitrate_mono_pixels {p : Profile} {w1 h1 w2 h2 : ℤ} {f : ℚ}
    (c : String) (hp : p.Valid) (hps : 0 ≤ p.pixel_scaling) (hf : 0 < f)
    (hw1 : 0 < w1) (hh1 : 0 < h1) (hpx : w1 * h1 ≤ w2 * h2) :
    raw_bitrate p w1 h1 f c ≤ raw_bitrate p w2 h2 f c := by
  obtain ⟨hrw, hrh, hrf, hrb⟩ := hp
  simp only [raw_bitrate]
  have hD : (0:ℝ) < ((p.reference_width * p.reference_height : ℤ) : ℝ) := by
    have : (0:ℤ) < p.reference_width * p.reference_height := mul_pos hrw hrh
    exact_mod_cast this
  have hpc1 : (0:ℝ) ≤ ((w1 * h1 : ℤ) : ℝ) := by
    have : (0:ℤ) ≤ w1 * h1 := (mul_pos hw1 hh1).le
    exact_mod_cast this
  have hpcle : ((w1 * h1 : ℤ) : ℝ) ≤ ((w2 * h2 : ℤ) : ℝ) := by exact_mod_cast hpx
  have hE : (0:ℝ) ≤ ((p.pixel_scaling / 100 : ℚ) : ℝ) := by
    have : (0:ℚ) ≤ p.pixel_scaling / 100 := by positivity
    exact_mod_cast this
  have hpm : ((w1 * h1 : ℤ) : ℝ) / ((p.reference_width * p.reference_height : ℤ) : ℝ)
      ≤ ((w2 * h2 : ℤ) : ℝ) / ((p.reference_width * p.reference_height : ℤ) : ℝ) :=
    (div_le_div_iff_of_pos_right hD).2 hpcle
  have hpmle := Real.rpow_le_rpow (div_nonneg hpc1 hD.le) hpm hE
  have hB : (0:ℝ) ≤ (p.reference_bitrate : ℝ) := by exact_mod_cast hrb.le
  have hfm : (0:ℝ) ≤ ((f : ℝ) / ((p.reference_framerate : ℤ) : ℝ)) ^
      ((p.framerate_scaling / 100 : ℚ) : ℝ) := by
    apply Real.rpow_nonneg
    have h1 : (0:ℝ) ≤ (f : ℝ) := by exact_mod_cast hf.le
    have h2 : (0:ℝ) ≤ ((p.reference_framerate : ℤ) : ℝ) := by exact_mod_cast hrf.le
    exact div_nonneg h1 h2
  have hem : (0:ℝ) ≤ ((obtain_encoder_efficiency c : ℚ) : ℝ) /
      ((obtain_encoder_efficiency p.reference_encoder : ℚ) : ℝ) := by
    refine div_nonneg ?_ ?_
    · exact_mod_cast obtain_encoder_efficiency_nonneg c
    · exact_mod_cast obtain_encoder_efficiency_nonneg p.reference_encoder
  exact mul_le_mul_of_nonneg_right
    (mul_le_mul_of_nonneg_right (mul_le_mul_of_nonneg_left hpmle hB) hfm) hem

lemma raw_bitrate_hevc_le_avc {p : Profile} {w h : ℤ} {f : ℚ}
    (hp : p.Valid) (hw : 0 < w) (hh : 0 < h) (hf : 0 < f) :
    raw_bitrate p w h f "hevc" ≤ raw_bitrate p w h f "avc" := by
  obtain ⟨hrw, hrh, hrf, hrb⟩ := hp
  simp only [raw_bitrate, eff_hevc, eff_avc_lower]
  have heref : (0:ℝ) ≤ ((obtain_encoder_efficiency p.reference_encoder : ℚ) : ℝ) := by
    exact_mod_cast obtain_encoder_efficiency_nonneg p.reference_encoder
  have hcommon : (0:ℝ) ≤ (p.reference_bitrate : ℝ) *
      (((w * h : ℤ) : ℝ) / ((p.reference_width * p.reference_height : ℤ) : ℝ)) ^
        ((p.pixel_scaling / 100 : ℚ) : ℝ) *
      ((f : ℝ) / ((p.reference_framerate : ℤ) : ℝ)) ^
        ((p.framerate_scaling / 100 : ℚ) : ℝ) := by
    have hB : (0:ℝ) ≤ (p.reference_bitrate : ℝ) := by exact_mod_cast hrb.le
    have hb1 : (0:ℝ) ≤ ((w * h : ℤ) : ℝ) /
        ((p.reference_width * p.reference_height : ℤ) : ℝ) := by
      have h1 : (0:ℝ) ≤ ((w * h : ℤ) : ℝ) := by
        exact_mod_cast (mul_pos hw hh).le
      have h2 : (0:ℝ) ≤ ((p.reference_width * p.reference_height : ℤ) : ℝ) := by
        exact_mod_cast (mul_pos hrw hrh).le
      exact div_nonneg h1 h2
    have hb2 : (0:ℝ) ≤ (f : ℝ) / ((p.reference_framerate : ℤ) : ℝ) := by
      have h1 : (0:ℝ) ≤ (f : ℝ) := by exact_mod_cast hf.le
      have h2 : (0:ℝ) ≤ ((p.reference_framerate : ℤ) : ℝ) := by
        exact_mod_cast hrf.le
      exact div_nonneg h1 h2
    exact mul_nonneg (mul_nonneg hB (Real.rpow_nonneg hb1 _))
      (Real.rpow_nonneg hb2 _)
  have hdivle : (((3/4 : ℚ) : ℝ)) /
        ((obtain_encoder_efficiency p.reference_encoder : ℚ) : ℝ) ≤
      ((1 : ℚ) : ℝ) /
        ((obtain_encoder_efficiency p.reference_encoder : ℚ) : ℝ) := by
    rw [div_eq_mul_inv, div_eq_mul_inv]
    apply mul_le_mul_of_nonneg_right ?_ (inv_nonneg.2 heref)
    push_cast
    norm_num
  exact mul_le_mul_of_nonneg_left hdivle hcommon

lemma suggested_default_1x1 (c : String)
    (hc : obtain_encoder_efficiency c ≤ 1) :
    calculate_suggested_video_bitrate load_video_config 1 1 24 c =
      Except.ok 0 := by
  rw [suggested_eq_of_pos c default_valid (by norm_num) (by norm_num)
    (by norm_num) eff_default_ref_ne_zero]
  have hnn : 0 ≤ raw_bitrate load_video_config 1 1 24 c :=
    raw_bitrate_nonneg c default_valid (by norm_num) (by norm_num) (by norm_num)
  have hub : raw_bitrate load_video_config 1 1 24 c < 100000 := by
    simp only [raw_bitrate, load_video_config, eff_avc_upper]
    have hx : ((1 * 1 : ℤ) : ℝ) / ((1920 * 1080 : ℤ) : ℝ) = 1/2073600 := by
      norm_num
    have hfm1 : ((24 : ℚ) : ℝ) / ((24 : ℤ) : ℝ) = 1 := by norm_num
    rw [hx, hfm1, Real.one_rpow]
    have hple : (1/2073600 : ℝ) ^ ((90/100 : ℚ) : ℝ) ≤ 1/1440 := by
      calc (1/2073600 : ℝ) ^ ((90/100 : ℚ) : ℝ)
          ≤ (1/2073600 : ℝ) ^ ((1:ℝ)/2) :=
            Real.rpow_le_rpow_of_exponent_ge (by norm_num) (by norm_num)
              (by push_cast; norm_num)
        _ = 1/1440 := by
            rw [← Real.sqrt_eq_rpow,
              show (1/2073600 : ℝ) = (1/1440)^2 by norm_num,
              Real.sqrt_sq (by norm_num)]
    have hp0 : (0:ℝ) ≤ (1/2073600 : ℝ) ^ ((90/100 : ℚ) : ℝ) :=
      Real.rpow_nonneg (by norm_num) _
    have hE0 : (0:ℝ) ≤ ((obtain_encoder_efficiency c : ℚ) : ℝ) := by
      exact_mod_cast obtain_encoder_efficiency_nonneg c
    have hE1 : ((obtain_encoder_efficiency c : ℚ) : ℝ) ≤ 1 := by
      exact_mod_cast hc
    have h1q : ((1 : ℚ) : ℝ) = 1 := by norm_num
    rw [h1q, div_one]
    nlinarith [hple, hp0, hE0, hE1]
  have hfl : ⌊raw_bitrate load_video_config 1 1 24 c / 100000⌋ = 0 := by
    rw [Int.floor_eq_zero_iff]
    constructor
    · positivity
    · rw [div_lt_one (by norm_num)]
      exact hub
  rw [pyTrunc_of_nonneg (by positivity), hfl]
  norm_num

/-- C6: for a fixed positive framerate, fixed codec, and fixed valid
Reference Profile with positive pixel-scaling percentage (and a known
reference encoder, without which no value is returned), the suggestion is
non-decreasing in the pixel count `width * height`. -/
theorem C6_pixel_monotonicity (p : Profile) (f : ℚ) (c : String)
    (w1 h1 w2 h2 : ℤ) (hp : p.Valid) (hps : 0 < p.pixel_scaling)
    (hf : 0 < f) (hw1 : 0 < w1) (hh1 : 0 < h1) (hw2 : 0 < w2) (hh2 : 0 < h2)
    (hre : obtain_encoder_efficiency p.reference_encoder ≠ 0)
    (hpx : w1 * h1 ≤ w2 * h2) :
    ∃ b1 b2 : ℤ,
      calculate_suggested_video_bitrate p w1 h1 f c = Except.ok b1 ∧
      calculate_suggested_video_bitrate p w2 h2 f c = Except.ok b2 ∧
      b1 ≤ b2 := by
  refine ⟨_, _, suggested_eq_of_pos c hp hw1 hh1 hf hre,
    suggested_eq_of_pos c hp hw2 hh2 hf hre, ?_⟩
  have h1nn : (0:ℝ) ≤ raw_bitrate p w1 h1 f c / 100000 :=
    div_nonneg (raw_bitrate_nonneg c hp hw1 hh1 hf) (by norm_num)
  have h2nn : (0:ℝ) ≤ raw_bitrate p w2 h2 f c / 100000 :=
    div_nonneg (raw_bitrate_nonneg c hp hw2 hh2 hf) (by norm_num)
  rw [pyTrunc_of_nonneg h1nn, pyTrunc_of_nonneg h2nn]
  have hmono := raw_bitrate_mono_pixels c hp hps.le hf hw1 hh1 hpx
  have hdiv : raw_bitrate p w1 h1 f c / 100000 ≤
      raw_bitrate p w2 h2 f c / 100000 :=
    (div_le_div_iff_of_pos_right (by norm_num : (0:ℝ) < 100000)).2 hmono
  exact mul_le_mul_of_nonneg_right (Int.floor_le_floor hdiv) (by norm_num)

/-- Witness for C6 at two resolutions with equal pixel count. -/
theorem C6_pixel_monotonicity_witness :
    ∃ b1 b2 : ℤ,
      calculate_suggested_video_bitrate load_video_config 1080 1920 24 "avc" =
        Except.ok b1 ∧
      calculate_suggested_video_bitrate load_video_config 1920 1080 24 "avc" =
        Except.ok b2 ∧
      b1 ≤ b2 :=
 by
  apply C6_pixel_monotonicity load_video_config 24 "avc" 1080 1920 1920 1080
    default_valid
  all_goals first
    | exact eff_default_ref_ne_zero
    | norm_num [load_video_config]

/-- C7 (amended): for identical positive width, height and framerate under a
valid profile with a known reference encoder, the HEVC suggestion is less
than or equal to the AVC suggestion.  (Strict inequality fails: the 100000
quantization can collapse both to the same value — see the
counterexample.) -/
theorem C7_codec_ordering (p : Profile) (w h : ℤ) (f : ℚ)
    (hp : p.Valid) (hw : 0 < w) (hh : 0 < h) (hf : 0 < f)
    (hre : obtain_encoder_efficiency p.reference_encoder ≠ 0) :
    ∃ bh ba : ℤ,
      calculate_suggested_video_bitrate p w h f "hevc" = Except.ok bh ∧
      calculate_suggested_video_bitrate p w h f "avc" = Except.ok ba ∧
      bh ≤ ba := by
  refine ⟨_, _, suggested_eq_of_pos "hevc" hp hw hh hf hre,
    suggested_eq_of_pos "avc" hp hw hh hf hre, ?_⟩
  have h1nn : (0:ℝ) ≤ raw_bitrate p w h f "hevc" / 100000 :=
    div_nonneg (raw_bitrate_nonneg "hevc" hp hw hh hf) (by norm_num)
  have h2nn : (0:ℝ) ≤ raw_bitrate p w h f "avc" / 100000 :=
    div_nonneg (raw_bitrate_nonneg "avc" hp hw hh hf) (by norm_num)
  rw [pyTrunc_of_nonneg h1nn, pyTrunc_of_nonneg h2nn]
  have hdiv : raw_bitrate p w h f "hevc" / 100000 ≤
      raw_bitrate p w h f "avc" / 100000 :=
    (div_le_div_iff_of_pos_right (by norm_num : (0:ℝ) < 100000)).2
      (raw_bitrate_hevc_le_avc hp hw hh hf)
  exact mul_le_mul_of_nonneg_right (Int.floor_le_floor hdiv) (by norm_num)

/-- Witness for C7 at the default profile and reference resolution. -/
theorem C7_codec_ordering_witness :
    ∃ bh ba : ℤ,
      calculate_suggested_video_bitrate load_video_config 1920 1080 24 "hevc" =
        Except.ok bh ∧
      calculate_suggested_video_bitrate load_video_config 1920 1080 24 "avc" =
        Except.ok ba ∧
      bh ≤ ba :=
  C7_codec_ordering load_video_config 1920 1080 24 default_valid
    (by norm_num) (by norm_num) (by norm_num) eff_default_ref_ne_zero

/-- Counterexample to C7 as stated: at width = height = 1, framerate 24, the
default profile quantizes both the HEVC and the AVC suggestion to 0, so the
strict inequality fails. -/
theorem C7_strictness_counterexample :
    ¬ (∀ bh ba : ℤ,
        calculate_suggested_video_bitrate load_video_config 1 1 24 "hevc" =
          Except.ok bh →
        calculate_suggested_video_bitrate load_video_config 1 1 24 "avc" =
          Except.ok ba →
        bh < ba) := by
  intro hcl
  have h1 := suggested_default_1x1 "hevc" (by rw [eff_hevc]; norm_num)
  have h2 := suggested_default_1x1 "avc" (by rw [eff_avc_lower])
  exact absurd (hcl 0 0 h1 h2) (by norm_num)

/-- With positive inputs but an unknown reference encoder, the encoder
multiplier divides by zero, so the call raises ZeroDivisionError. -/
lemma suggested_refzero_err {p : Profile} {w h : ℤ} {f : ℚ} (c : String)
    (hp : p.Valid) (hw : 0 < w) (hh : 0 < h) (hf : 0 < f)
    (hre : obtain_encoder_efficiency p.reference_encoder = 0) :
    calculate_suggested_video_bitrate p w h f c =
      Except.error "ZeroDivisionError: float division by zero" := by
  obtain ⟨hrw, hrh, hrf, hrb⟩ := hp
  have g1 : ¬ (p.reference_width * p.reference_height = 0) :=
    mul_ne_zero hrw.ne' hrh.ne'
  have g2 : ¬ (w * h = 0 ∧ p.pixel_scaling / 100 < 0) := fun hc =>
    mul_ne_zero hw.ne' hh.ne' hc.1
  have g3 : ¬ (p.reference_framerate = 0) := hrf.ne'
  have g4 : ¬ (f = 0 ∧ p.framerate_scaling / 100 < 0) := fun hc => hf.ne' hc.1
  simp only [calculate_suggested_video_bitrate]
  rw [if_neg g1, if_neg g2, if_neg g3, if_neg g4, if_pos hre]

/-- Any integer actually returned by the suggestion function on positive
inputs is nonnegative and a multiple of 100000. -/
lemma suggested_ok_properties {p : Profile} {w h : ℤ} {f : ℚ} {c : String}
    {b : ℤ} (hp : p.Valid) (hw : 0 < w) (hh : 0 < h) (hf : 0 < f)
    (hok : calculate_suggested_video_bitrate p w h f c = Except.ok b) :
    0 ≤ b ∧ (100000 : ℤ) ∣ b := by
  by_cases hre : obtain_encoder_efficiency p.reference_encoder = 0
  · rw [suggested_refzero_err c hp hw hh hf hre] at hok
    exact absurd hok (by simp)
  · rw [suggested_eq_of_pos c hp hw hh hf hre] at hok
    have hb : b = pyTrunc (raw_bitrate p w h f c / 100000) * 100000 := by
      injection hok with h'
      exact h'.symm
    subst hb
    constructor
    · have hfl : 0 ≤ pyTrunc (raw_bitrate p w h f c / 100000) := by
        rw [pyTrunc_of_nonneg
          (div_nonneg (raw_bitrate_nonneg c hp hw hh hf) (by norm_num))]
        exact Int.floor_nonneg.2
          (div_nonneg (raw_bitrate_nonneg c hp hw hh hf) (by norm_num))
      positivity
    · exact dvd_mul_left 100000 _

/-- C3 (amended): a missing codec entry is only silent on the supplied-codec
side.  If the supplied codec is unknown but the reference encoder is known,
the call returns 0 without raising; if the reference encoder itself is
unknown, the call raises ZeroDivisionError instead of returning 0. -/
theorem C3_unknown_codec (p : Profile) (w h : ℤ) (f : ℚ) (c : String)
    (hp : p.Valid) (hw : 0 < w) (hh : 0 < h) (hf : 0 < f) :
    (obtain_encoder_efficiency c = 0 →
      obtain_encoder_efficiency p.reference_encoder ≠ 0 →
      calculate_suggested_video_bitrate p w h f c = Except.ok 0) ∧
    (obtain_encoder_efficiency p.reference_encoder = 0 →
      calculate_suggested_video_bitrate p w h f c =
        Except.error "ZeroDivisionError: float division by zero") := by
  constructor
  · intro hc hre
    rw [suggested_eq_of_pos c hp hw hh hf hre]
    have hraw : raw_bitrate p w h f c = 0 := by
      simp only [raw_bitrate, hc]
      push_cast
      ring
    rw [hraw]
    norm_num [pyTrunc_of_nonneg]
  · intro hre
    exact suggested_refzero_err c hp hw hh hf hre

/-- Witness for C3: unknown supplied codec "foobar" against the default
profile returns 0 silently. -/
theorem C3_unknown_codec_witness :
    calculate_suggested_video_bitrate load_video_config 1920 1080 24
      "foobar" = Except.ok 0 :=
  (C3_unknown_codec load_video_config 1920 1080 24 "foobar" default_valid
    (by norm_num) (by norm_num) (by norm_num)).1 eff_foobar
    eff_default_ref_ne_zero

/-- Counterexample to C3 as stated: an unknown *reference* encoder does not
produce the documented silent 0 — the call raises ZeroDivisionError. -/
theorem C3_reference_unknown_counterexample :
    calculate_suggested_video_bitrate
      { load_video_config with reference_encoder := "foobar" } 1920 1080 24
      "avc" = Except.error "ZeroDivisionError: float division by zero" := by
  apply suggested_refzero_err "avc" _ (by norm_num) (by norm_num) (by norm_num)
  · exact eff_foobar
  · exact ⟨by norm_num [load_video_config], by norm_num [load_video_config],
      by norm_num [load_video_config], by norm_num [load_video_config]⟩

/-- C4: the code performs no input validation.  At width 0 (a non-positive
input the spec requires to be rejected with InvalidInput) the power-law base
is 0, the suggestion silently degenerates to 0 and no exception is raised. -/
theorem C4_zero_width_silent :
    calculate_suggested_video_bitrate load_video_config 0 1080 24 "avc" =
      Except.ok 0 := by
  have g1 : ¬ (load_video_config.reference_width *
      load_video_config.reference_height = 0) := by
    norm_num [load_video_config]
  have g2 : ¬ ((0 * 1080 : ℤ) = 0 ∧ load_video_config.pixel_scaling / 100 < 0) := by
    rintro ⟨-, hlt⟩
    norm_num [load_video_config] at hlt
  have g3 : ¬ (load_video_config.reference_framerate = 0) := by
    norm_num [load_video_config]
  have g4 : ¬ ((24 : ℚ) = 0 ∧ load_video_config.framerate_scaling / 100 < 0) := by
    rintro ⟨h24, -⟩
    norm_num at h24
  have g6 : ¬ ((((0 * 1080 : ℤ) : ℚ) / ((load_video_config.reference_width *
          load_video_config.reference_height : ℤ) : ℚ) < 0
        ∧ (load_video_config.pixel_scaling / 100).den ≠ 1)
      ∨ ((24 : ℚ) / ((load_video_config.reference_framerate : ℤ) : ℚ) < 0
        ∧ (load_video_config.framerate_scaling / 100).den ≠ 1)) := by
    rintro (⟨hlt, -⟩ | ⟨hlt, -⟩) <;> norm_num [load_video_config] at hlt
  simp only [calculate_suggested_video_bitrate]
  rw [if_neg g1, if_neg g2, if_neg g3, if_neg g4,
    if_neg eff_default_ref_ne_zero, if_neg g6]
  have hraw : raw_bitrate load_video_config 0 1080 24 "avc" = 0 := by
    simp only [raw_bitrate, load_video_config]
    have hbase : ((0 * 1080 : ℤ) : ℝ) / ((1920 * 1080 : ℤ) : ℝ) = 0 := by
      push_cast
      norm_num
    rw [hbase, Real.zero_rpow]
    · ring
    · push_cast
      norm_num
  rw [hraw]
  norm_num [pyTrunc_of_nonneg]

/-- Core of the amended C5: `int(n * 1.15)` in binary64, for a nonnegative
multiple of 100000 below `2^52`, is the exact floor of `n * 23/20` or that
floor minus one.  (The exact product of a multiple of 100000 with 23/20 is an
integer `N`; the correctly rounded double product falls within `(N-1, N+1)`.) -/
lemma maxrate_cases {n : ℤ} (h0 : 0 ≤ n) (hdvd : (100000 : ℤ) ∣ n)
    (h52 : n < 2 ^ 52) :
    pyTruncQ (fl64 (fl64 (n : ℚ) * fl64 (23/20))) = ⌊(n : ℚ) * (23/20)⌋ ∨
    pyTruncQ (fl64 (fl64 (n : ℚ) * fl64 (23/20))) =
      ⌊(n : ℚ) * (23/20)⌋ - 1 := by
  rcases eq_or_lt_of_le h0 with h0' | hpos
  · left
    rw [← h0']
    simp only [Int.cast_zero, fl64_zero, zero_mul]
    simp [pyTruncQ]
  · obtain ⟨k, hk⟩ := hdvd
    have hkpos : 0 < k := by
      by_contra hkn
      push_neg at hkn
      have hnp : n ≤ 0 := by
        rw [hk]
        exact mul_nonpos_of_nonneg_of_nonpos (by norm_num) hkn
      omega
    set N : ℤ := 115000 * k with hN
    have hfn : fl64 (n : ℚ) = (n : ℚ) :=
      fl64_intCast hpos (by nlinarith [h52])
    rw [hfn, fl64_of_23_20]
    set c115 : ℚ := 5179139571476070 / 2 ^ 52 with hc115
    set P : ℚ := (n : ℚ) * c115 with hP
    have hn52 : (n : ℚ) < 2 ^ 52 := by exact_mod_cast h52
    have hnq : (n : ℚ) = 100000 * (k : ℚ) := by exact_mod_cast hk
    have hNq : ((N : ℤ) : ℚ) = (n : ℚ) * (23/20) := by
      rw [hN, hnq]
      push_cast
      ring
    have hdiff : (23/20 : ℚ) - c115 = 2 / (5 * 2 ^ 52) := by
      rw [hc115]
      norm_num
    have hc115pos : (0:ℚ) < c115 := by rw [hc115]; norm_num
    have hPpos : (0:ℚ) < P := mul_pos (by exact_mod_cast hpos) hc115pos
    have hPlt : P < ((N : ℤ) : ℚ) := by
      rw [hNq, hP]
      have hlt : c115 < 23/20 := by linarith [hdiff]
      exact mul_lt_mul_of_pos_left hlt (by exact_mod_cast hpos)
    have hgap : ((N : ℤ) : ℚ) - P = (n : ℚ) * (2 / (5 * 2 ^ 52)) := by
      rw [hNq, hP, ← mul_sub, hdiff]
    have hPgt : ((N : ℤ) : ℚ) - 2/5 < P := by
      have h1 : (n : ℚ) * (2 / (5 * 2 ^ 52)) < 2 ^ 52 * (2 / (5 * 2 ^ 52)) :=
        mul_lt_mul_of_pos_right hn52 (by norm_num)
      have h2 : (2:ℚ) ^ 52 * (2 / (5 * 2 ^ 52)) = 2/5 := by norm_num
      linarith
    have herr := abs_le.1 (fl64_err hPpos)
    have hPub : P < 2 ^ 52 * (23/20) := by
      have := mul_lt_mul_of_pos_right hn52 (show (0:ℚ) < 23/20 by norm_num)
      linarith [hNq ▸ hPlt]
    have hP53 : P / 2 ^ 53 < 3/5 := by
      have hmono : P / 2 ^ 53 < (2 ^ 52 * (23/20)) / 2 ^ 53 :=
        (div_lt_div_iff_of_pos_right (show (0:ℚ) < 2 ^ 53 by norm_num)).2 hPub
      have hval : ((2:ℚ) ^ 52 * (23/20)) / 2 ^ 53 = 23/40 := by norm_num
      linarith
    have hNlb : (115000 : ℚ) ≤ ((N : ℤ) : ℚ) := by
      have hZ : (115000:ℤ) ≤ N := by rw [hN]; nlinarith [hkpos]
      exact_mod_cast hZ
    have hflub : fl64 P < ((N : ℤ) : ℚ) + 1 := by linarith
    have hfllb : ((N : ℤ) : ℚ) - 1 < fl64 P := by linarith
    have hflnn : (0:ℚ) ≤ fl64 P := by linarith
    rw [pyTruncQ_of_nonneg hflnn]
    have hfloorN : ⌊(n:ℚ) * (23/20)⌋ = N := by
      rw [← hNq, Int.floor_intCast]
    rw [hfloorN]
    by_cases hcase : ((N : ℤ) : ℚ) ≤ fl64 P
    · left
      exact Int.floor_eq_iff.2 ⟨hcase, by push_cast; linarith⟩
    · right
      push_neg at hcase
      refine Int.floor_eq_iff.2 ⟨?_, ?_⟩
      · push_cast
        linarith
      · push_cast
        linarith

/-- Concrete binary64 evaluation: `int(172900000 * 1.15)` is 198834999, one
below the exact floor 198835000. -/
lemma maxrate_concrete :
    pyTruncQ (fl64 (fl64 ((172900000 : ℤ) : ℚ) * fl64 (23/20))) =
      198834999 := by
  have hfn : fl64 ((172900000 : ℤ) : ℚ) = ((172900000 : ℤ) : ℚ) :=
    fl64_intCast (by norm_num) (by norm_num)
  rw [hfn, fl64_of_23_20]
  have hfl : fl64 (((172900000 : ℤ) : ℚ) * (5179139571476070 / 2 ^ 52)) =
      ((6671795486719999 : ℤ) : ℚ) * 2 ^ ((27 : ℤ) - 52) := by
    apply fl64_eq_down (e := 27) (n := 6671795486719999)
    · push_cast
      norm_num
    · push_cast
      norm_num
    · push_cast
      norm_num
    · push_cast
      norm_num
    · push_cast
      norm_num
  rw [hfl]
  have hval : ((6671795486719999 : ℤ) : ℚ) * 2 ^ ((27 : ℤ) - 52) =
      6671795486719999 / 2 ^ 25 := by
    push_cast
    norm_num
  rw [hval, pyTruncQ_of_nonneg (by norm_num)]
  refine Int.floor_eq_iff.2 ⟨?_, ?_⟩ <;> push_cast <;> norm_num

/-- The suggestion for a 10935 x 10935 source at 24 fps re-encoded as HEVC
under the default profile: the pixel ratio is `(3/2)^10`, so the pixel
multiplier is exactly `(3/2)^9`, and the suggestion quantizes to
172,900,000. -/
lemma suggested_10935 :
    calculate_suggested_video_bitrate load_video_config 10935 10935 24
      "HEVC" = Except.ok 172900000 := by
  rw [suggested_eq_of_pos "HEVC" default_valid (by norm_num) (by norm_num)
    (by norm_num) eff_default_ref_ne_zero]
  have hraw : raw_bitrate load_video_config 10935 10935 24 "HEVC" =
      2767921875 / 16 := by
    simp only [raw_bitrate, load_video_config, eff_HEVC, eff_avc_upper]
    have hfm : ((24 : ℚ) : ℝ) / ((24 : ℤ) : ℝ) = 1 := by norm_num
    rw [hfm, Real.one_rpow]
    have hbase : ((10935 * 10935 : ℤ) : ℝ) / ((1920 * 1080 : ℤ) : ℝ) =
        ((3 : ℝ)/2) ^ (10 : ℕ) := by
      push_cast
      norm_num
    rw [hbase]
    have hexp : ((((3 : ℝ)/2) ^ (10 : ℕ)) ^ ((90/100 : ℚ) : ℝ)) =
        ((3 : ℝ)/2) ^ (9 : ℕ) := by
      rw [← Real.rpow_natCast ((3:ℝ)/2) 10,
        ← Real.rpow_mul (by norm_num : (0:ℝ) ≤ 3/2)]
      rw [show ((10 : ℕ) : ℝ) * ((90/100 : ℚ) : ℝ) = ((9 : ℕ) : ℝ) by
        push_cast; norm_num]
      rw [Real.rpow_natCast]
    rw [hexp]
    push_cast
    norm_num
  rw [hraw, pyTrunc_of_nonneg (by norm_num)]
  have hfl : ⌊(2767921875 / 16 : ℝ) / 100000⌋ = 1729 := by
    refine Int.floor_eq_iff.2 ⟨?_, ?_⟩ <;> push_cast <;> norm_num
  rw [hfl]
  norm_num

/-- The full encoding-parameter dict at the C5 counterexample input. -/
lemma params_10935 :
    calculate_encoding_parameters load_video_config "libx265" 10935 10935
      24 = Except.ok ⟨172900000, 198834999, 397669998, "libx265"⟩ := by
  simp only [calculate_encoding_parameters]
  rw [show target_encoder_of "libx265" = "HEVC" from rfl]
  simp only [suggested_10935, maxrate_concrete]
  norm_num

/-- C5 (amended): `bufsize == 2 * maxrate` always holds, but `maxrate` is
`int(target_bitrate * 1.15)` evaluated in binary64 floating point, which
equals the exact `floor(target_bitrate * 23/20)` or that floor minus one
(the literal 1.15 is slightly below 23/20, and for a multiple of 100000 the
exact product is an integer the double product can fall just short of). -/
theorem C5_bufsize_maxrate (p : Profile) (out : String) (w h : ℤ) (f : ℚ)
    (hp : p.Valid) (hw : 0 < w) (hh : 0 < h) (hf : 0 < f) :
    ∀ ep : EncodingParameters,
      calculate_encoding_parameters p out w h f = Except.ok ep →
      ep.target_bitrate < 2 ^ 52 →
      ep.bufsize = 2 * ep.maxrate ∧
        (ep.maxrate = ⌊(ep.target_bitrate : ℚ) * (23/20)⌋ ∨
         ep.maxrate = ⌊(ep.target_bitrate : ℚ) * (23/20)⌋ - 1) := by
  intro ep hok hlt
  cases hS : calculate_suggested_video_bitrate p w h f
      (target_encoder_of out) with
  | error e =>
      simp only [calculate_encoding_parameters, hS] at hok
      exact absurd hok (by simp)
  | ok tb =>
      simp only [calculate_encoding_parameters, hS, Except.ok.injEq] at hok
      obtain ⟨h0, hdvd⟩ := suggested_ok_properties hp hw hh hf hS
      subst hok
      refine ⟨mul_comm _ 2, ?_⟩
      exact maxrate_cases h0 hdvd hlt

/-- Witness for C5 at the 10935 x 10935 @ 24 input: there the second
disjunct is the one that holds. -/
theorem C5_bufsize_maxrate_witness :
    (397669998 : ℤ) = 2 * 198834999 ∧
      ((198834999 : ℤ) = ⌊((172900000 : ℤ) : ℚ) * (23/20)⌋ ∨
       (198834999 : ℤ) = ⌊((172900000 : ℤ) : ℚ) * (23/20)⌋ - 1) :=
  C5_bufsize_maxrate load_video_config "libx265" 10935 10935 24
    default_valid (by norm_num) (by norm_num) (by norm_num)
    ⟨172900000, 198834999, 397669998, "libx265"⟩ params_10935 (by norm_num)

/-- Counterexample to C5 as stated: at source 10935 x 10935 @ 24 fps with the
default configuration, the returned maxrate is 198834999 while the exact
mathematical `floor(target_bitrate * 23/20)` is 198835000 — binary64 rounding
of the literal 1.15 loses one unit. -/
theorem C5_exact_floor_counterexample :
    calculate_encoding_parameters load_video_config "libx265" 10935 10935
        24 = Except.ok ⟨172900000, 198834999, 397669998, "libx265"⟩ ∧
    (198834999 : ℤ) ≠ ⌊((172900000 : ℤ) : ℚ) * (23/20)⌋ := by
  refine ⟨params_10935, ?_⟩
  have hfl : ⌊((172900000 : ℤ) : ℚ) * (23/20)⌋ = 198835000 := by
    rw [show ((172900000 : ℤ) : ℚ) * (23/20) = ((198835000 : ℤ) : ℚ) by
      push_cast; norm_num, Int.floor_intCast]
  rw [hfl]
  norm_num

/-- C8: the four known ffmpeg encoder identifiers map to their codec
families, every other identifier falls back to the HEVC family for the
efficiency lookup only, and the returned dict's `encoder` field always
preserves the original output-encoder identifier (while the target bitrate
was computed from the mapped family). -/
theorem C8_encoder_mapping :
    (target_encoder_of "libx264" = "AVC" ∧
     target_encoder_of "libx265" = "HEVC" ∧
     target_encoder_of "libaom-av1" = "AV1" ∧
     target_encoder_of "libvpx-vp9" = "VP9") ∧
    (∀ out : String,
      out ∉ (["libx264", "libx265", "libaom-av1", "libvpx-vp9"] :
        List String) →
      target_encoder_of out = "HEVC") ∧
    (∀ (p : Profile) (out : String) (w h : ℤ) (f : ℚ)
        (ep : EncodingParameters),
      calculate_encoding_parameters p out w h f = Except.ok ep →
      ep.encoder = out ∧
      calculate_suggested_video_bitrate p w h f (target_encoder_of out) =
        Except.ok ep.target_bitrate) := by
  refine ⟨⟨rfl, rfl, rfl, rfl⟩, ?_, ?_⟩
  · intro out hout
    have hnone : ([("libx264", "AVC"), ("libx265", "HEVC"),
        ("libaom-av1", "AV1"), ("libvpx-vp9", "VP9")] :
          List (String × String)).lookup out = none := by
      apply lookup_eq_none_iff.2
      simpa using hout
    simp only [target_encoder_of, hnone, Option.getD_none]
  · intro p out w h f ep hok
    cases hS : calculate_suggested_video_bitrate p w h f
        (target_encoder_of out) with
    | error e =>
        simp only [calculate_encoding_parameters, hS] at hok
        exact absurd hok (by simp)
    | ok tb =>
        simp only [calculate_encoding_parameters, hS, Except.ok.injEq] at hok
        subst hok
        exact ⟨rfl, rfl⟩

/-- Witness for C8: an unmapped encoder identifier falls back to HEVC. -/
theorem C8_encoder_mapping_witness :
    target_encoder_of "h264_nvenc" = "HEVC" :=
  C8_encoder_mapping.2.1 "h264_nvenc" (by decide)

/-- C10: `obtain_encoder_efficiency` returns 0 exactly when the lowercased
codec name is not a key of the table, and every table value lies in the
closed interval `[0.6, 3.0]`, so a result of 0 unambiguously signals an
unknown codec. -/
theorem C10_efficiency_range (s : String) :
    (obtain_encoder_efficiency s = 0 ↔
      py_lower s ∉ ENCODER_MAP.map Prod.fst) ∧
    (obtain_encoder_efficiency s ≠ 0 →
      3/5 ≤ obtain_encoder_efficiency s ∧ obtain_encoder_efficiency s ≤ 3) := by
  cases hl : ENCODER_MAP.lookup (py_lower s) with
  | none =>
      have heff : obtain_encoder_efficiency s = 0 := by
        simp only [obtain_encoder_efficiency, hl]
      exact ⟨⟨fun _ => lookup_eq_none_iff.1 hl, fun _ => heff⟩,
        fun hne => absurd heff hne⟩
  | some v =>
      have heff : obtain_encoder_efficiency s = v := by
        simp only [obtain_encoder_efficiency, hl]
      have hb := encoder_map_values_bounds (lookup_mem_values hl)
      have hmem : py_lower s ∈ ENCODER_MAP.map Prod.fst := by
        by_contra hnm
        have hcontra := lookup_eq_none_iff.2 hnm
        rw [hl] at hcontra
        exact absurd hcontra (by simp)
      refine ⟨⟨?_, fun hnm => absurd hmem hnm⟩, fun _ => ?_⟩
      · intro h0
        rw [heff] at h0
        rw [h0] at hb
        exfalso
        linarith [hb.1]
      · rw [heff]
        exact hb

/-- Witness for C10: the AVC entry is a known codec with coefficient in
range. -/
theorem C10_efficiency_range_witness :
    3/5 ≤ obtain_encoder_efficiency "AVC" ∧
      obtain_encoder_efficiency "AVC" ≤ 3 :=
  (C10_efficiency_range "AVC").2 (by rw [eff_avc_upper]; norm_num)

/-- Rendering a positive exact value through float division and `%.2f` gives
the two-decimal string of an integer `v` of hundredths within half a
hundredth (plus the float rounding error) of the true value. -/
lemma pyFormat2f_accuracy {x : ℚ} (hx : 0 < x) :
    ∃ v : ℕ, pyFormat2f (fl64 x) = twoDecString v ∧
      |(v : ℚ) / 100 - x| ≤ 1/200 + x / 2 ^ 53 := by
  have herr := abs_le.1 (fl64_err hx)
  have hq0 : 0 < fl64 x := by
    have hxx : x / 2 ^ 53 < x := div_lt_self hx (by norm_num)
    linarith [herr.1]
  have hy0 : (0:ℚ) ≤ fl64 x * 100 + 1/2 := by
    have := mul_nonneg hq0.le (show (0:ℚ) ≤ 100 by norm_num)
    linarith
  have hfl0 : 0 ≤ ⌊fl64 x * 100 + 1/2⌋ := Int.floor_nonneg.2 hy0
  refine ⟨(⌊fl64 x * 100 + 1/2⌋).toNat, rfl, ?_⟩
  have hcast : (((⌊fl64 x * 100 + 1/2⌋).toNat : ℕ) : ℚ) =
      ((⌊fl64 x * 100 + 1/2⌋ : ℤ) : ℚ) := by
    exact_mod_cast Int.toNat_of_nonneg hfl0
  have hfl_le : ((⌊fl64 x * 100 + 1/2⌋ : ℤ) : ℚ) ≤ fl64 x * 100 + 1/2 :=
    Int.floor_le _
  have hfl_gt : fl64 x * 100 + 1/2 - 1 < ((⌊fl64 x * 100 + 1/2⌋ : ℤ) : ℚ) := by
    have := Int.lt_floor_add_one (fl64 x * 100 + 1/2)
    linarith
  rw [hcast, abs_le]
  constructor <;> linarith [herr.1, herr.2]

/-- C9: `format_bitrate` renders `X.XX Mbps` (the value divided by 1,000,000
to two decimals) for at least a megabit, `X.XX Kbps` (divided by 1,000) from
a kilobit up, and the plain integer with a ` bps` suffix below that. -/
theorem C9_format_bitrate (b : ℕ) :
    (1000000 ≤ b → ∃ v : ℕ,
      format_bitrate b = twoDecString v ++ " Mbps" ∧
      |(v : ℚ) / 100 - (b : ℚ) / 1000000| ≤
        1/200 + (b : ℚ) / 1000000 / 2 ^ 53) ∧
    (1000 ≤ b → b < 1000000 → ∃ v : ℕ,
      format_bitrate b = twoDecString v ++ " Kbps" ∧
      |(v : ℚ) / 100 - (b : ℚ) / 1000| ≤ 1/200 + (b : ℚ) / 1000 / 2 ^ 53) ∧
    (b < 1000 → format_bitrate b = toString b ++ " bps") := by
  refine ⟨?_, ?_, ?_⟩
  · intro hM
    have hx : (0:ℚ) < (b : ℚ) / 1000000 := by
      have hb : (0:ℕ) < b := by omega
      have : (0:ℚ) < (b : ℚ) := by exact_mod_cast hb
      positivity
    obtain ⟨v, hv1, hv2⟩ := pyFormat2f_accuracy hx
    refine ⟨v, ?_, hv2⟩
    rw [format_bitrate, if_pos hM, hv1]
  · intro hK hM
    have hx : (0:ℚ) < (b : ℚ) / 1000 := by
      have hb : (0:ℕ) < b := by omega
      have : (0:ℚ) < (b : ℚ) := by exact_mod_cast hb
      positivity
    obtain ⟨v, hv1, hv2⟩ := pyFormat2f_accuracy hx
    refine ⟨v, ?_, hv2⟩
    rw [format_bitrate, if_neg (by omega), if_pos hK, hv1]
  · intro hsmall
    rw [format_bitrate, if_neg (by omega), if_neg (by omega)]

/-- Witness for C9 in the Mbps branch at 6,000,000 bps. -/
theorem C9_format_bitrate_witness :
    ∃ v : ℕ, format_bitrate 6000000 = twoDecString v ++ " Mbps" ∧
      |(v : ℚ) / 100 - (6000000 : ℚ) / 1000000| ≤
        1/200 + (6000000 : ℚ) / 1000000 / 2 ^ 53 := by
  have h := (C9_format_bitrate 6000000).1 (by norm_num)
  exact_mod_cast h

end VideoChecker
